import Mathlib

/-!
Shallow embedding of `jwreftools/niriss/niriss_reftools.py`.

The embedding covers the two components the specification's claims are
about: the configuration-file line parser `dict_from_file` and the
beam grouper `split_order_info`.  Python dictionaries are modelled as
association lists in insertion order (Python 3.7+ dicts preserve
insertion order; `d[k] = v` on an existing key keeps its position,
otherwise appends).  The Python locals `zero` and `one` of
`split_order_info`, which are assigned inside loops and persist for the
whole function call, are modelled as explicit `Option` state threaded
through the computation; referencing them while unset is Python's
`UnboundLocalError`, modelled as an error result.
-/

deriving instance DecidableEq for Except

namespace Niriss

/-- ASCII letter, the regex character class `[a-zA-Z]`. -/
def isAsciiLetter (c : Char) : Bool :=
  ('a' ≤ c && c ≤ 'z') || ('A' ≤ c && c ≤ 'Z')

/-- ASCII digit, the regex character class `\d` = `[0-9]`. -/
def isAsciiDigit (c : Char) : Bool :=
  '0' ≤ c && c ≤ '9'

/-- Alphanumeric ASCII character, the regex class `[a-zA-Z0-9]`. -/
def isAlnumChar (c : Char) : Bool := isAsciiLetter c || isAsciiDigit c

/-- Word character, the regex class `\w` (ASCII part: `[a-zA-Z0-9_]`). -/
def isWordChar (c : Char) : Bool := isAlnumChar c || c == '_'

/-- Python whitespace: the `\s` class and `str.strip` default set (ASCII part). -/
def isPyWs (c : Char) : Bool :=
  c == ' ' || c == '\t' || c == '\n' || c == '\r' || c == '\x0b' || c == '\x0c'

/-- `isPre pat l` : `pat` is an initial segment of `l`. -/
def isPre : List Char → List Char → Bool
  | [], _ => true
  | _ :: _, [] => false
  | a :: as, b :: bs => a == b && isPre as bs

/-- `subList n l` : `n` occurs as a contiguous sublist of `l`
(Python's substring operator `n in l`). -/
def subList (n : List Char) : List Char → Bool
  | [] => n.isEmpty
  | c :: cs => isPre n (c :: cs) || subList n cs

/-- Python's substring test `sub in hay`. -/
def containsSubstr (hay sub : String) : Bool :=
  subList sub.data hay.data

/-- Python `str.replace(pat, rep)` on character lists: replace every
non-overlapping occurrence of `pat`, scanning left to right, never
rescanning the replacement text.  Structural recursion on a fuel
argument (one unit per character examined; a replacement consumes
`pat.length ≥ 1` characters, so fuel = input length suffices).  The
`pat = []` corner, which Python treats specially, is never exercised
here: the only pattern used is `"_" ++ beam`, which is nonempty. -/
def replaceAll (pat rep : List Char) : Nat → List Char → List Char
  | 0, l => l
  | _ + 1, [] => []
  | n + 1, c :: cs =>
    if !pat.isEmpty && isPre pat (c :: cs) then
      rep ++ replaceAll pat rep n ((c :: cs).drop pat.length)
    else
      c :: replaceAll pat rep n cs

/-- Python `str.replace` on strings. -/
def pyReplace (s pat rep : String) : String :=
  ⟨replaceAll pat.data rep.data s.data.length s.data⟩

/-- Python `str.strip()`: drop leading and trailing whitespace. -/
def pyStrip (s : String) : String :=
  ⟨((s.data.dropWhile isPyWs).reverse.dropWhile isPyWs).reverse⟩

/-- Lookup in an association list (Python `d[k]`, as an `Option`). -/
def lookupA {β : Type} : List (String × β) → String → Option β
  | [], _ => none
  | p :: ps, k => if p.1 == k then some p.2 else lookupA ps k

/-- Python `d[k] = v` on an insertion-ordered dictionary: overwrite in
place if the key is present, else append at the end. -/
def insertAssoc {β : Type} (d : List (String × β)) (k : String) (v : β) :
    List (String × β) :=
  if d.any (fun p => p.1 == k) then
    d.map (fun p => if p.1 == k then (k, v) else p)
  else
    d ++ [(k, v)]

/-! ### The beam grouper `split_order_info` -/

/-- Match of the compiled pattern `^[a-zA-Z]*_[a-zA-Z0-9]{1}_(?:\w)`
(`token` in `split_order_info`): an optional run of letters, an
underscore, exactly one alphanumeric character, an underscore, and at
least one word character.  Since the letter class excludes `_`, the
regex engine's backtracking is equivalent to taking the maximal
leading letter run. -/
def tokenMatch (k : String) : Bool :=
  match k.data.dropWhile isAsciiLetter with
  | a :: c :: b :: w :: _ => a == '_' && isAlnumChar c && b == '_' && isWordChar w
  | _ => false

/-- Match of the compiled pattern `^[a-zA-Z]*_[0-1]{1,1}$` (`rangekey`
in `split_order_info`): letters, one underscore, a final `0` or `1`. -/
def rangekeyMatch (k : String) : Bool :=
  match k.data.dropWhile isAsciiLetter with
  | [a, d] => a == '_' && (d == '0' || d == '1')
  | _ => false

/-- Python `key.split("_")` (accumulator holds the current segment in
reverse): split at every underscore, keeping empty segments. -/
def splitUndAux : List Char → List Char → List String
  | [], acc => [⟨acc.reverse⟩]
  | c :: cs, acc =>
    if c == '_' then (⟨acc.reverse⟩ : String) :: splitUndAux cs []
    else splitUndAux cs (c :: acc)

/-- Python `key.split("_")` on strings. -/
def splitUnd (s : String) : List String :=
  splitUndAux s.data []

/-- Python `str.upper()` (ASCII; beam tokens are alphanumeric ASCII). -/
def pyUpper (s : String) : String :=
  ⟨s.data.map Char.toUpper⟩

/-- `key.split("_")[1].upper()`: the second underscore-separated
segment of the key, uppercased.  (For keys matching `tokenMatch` the
segment exists; the default is never used then.) -/
def beamOf (k : String) : String :=
  pyUpper ((splitUnd k).getD 1 "")

/-- Values stored in the grouped dictionaries: either a value carried
over from the flat dictionary or a tuple built by the range collapse.
Python is dynamically typed, so tuples of tuples are representable
(`pair` takes `GVal`s), though the code only ever builds one level. -/
inductive GVal (α : Type) : Type
  | single : α → GVal α
  | pair : GVal α → GVal α → GVal α
deriving DecidableEq

/-- Runtime errors `split_order_info` can raise. -/
inductive SplitError : Type
  | unboundLocal (name : String)
  | keyError (key : String)
  | unexpectedRange (key : String)
deriving DecidableEq

/-- One step of the first (prefetch) loop of `split_order_info`: for a
key matching `tokenMatch`, register its beam (uppercased second
segment) on first sight and store the value under the key with every
occurrence of `_<BEAM>` removed; other keys are ignored. -/
def firstStep {α : Type} (rdict : List (String × List (String × GVal α)))
    (kv : String × α) : List (String × List (String × GVal α)) :=
  if tokenMatch kv.1 then
    let b := beamOf kv.1
    let rdict2 := if rdict.any (fun p => p.1 == b) then rdict else rdict ++ [(b, [])]
    let newkey := pyReplace kv.1 ("_" ++ b) ""
    rdict2.map (fun p => if p.1 == b then (p.1, insertAssoc p.2 newkey (GVal.single kv.2)) else p)
  else rdict

/-- The first loop of `split_order_info` over the whole input. -/
def firstPass {α : Type} (flat : List (String × α)) :
    List (String × List (String × GVal α)) :=
  flat.foldl firstStep []

/-- The inner `for mk in mlist` loop: set the function-level locals
`zero` / `one` from the last character of each key (`eval(mk[-1])`).
A last character other than `0`/`1` is the `ValueError` branch; a
missing key would be Python's `KeyError` (unreachable: `mlist ⊆ rkeys
⊆ keys of d`). -/
def setZeroOne {α : Type} (d : List (String × GVal α)) :
    Option (GVal α) × Option (GVal α) → List String →
    Except SplitError (Option (GVal α) × Option (GVal α))
  | st, [] => .ok st
  | st, mk :: rest =>
    match mk.data.getLast? with
    | some '0' =>
      match lookupA d mk with
      | some v => setZeroOne d (some v, st.2) rest
      | none => .error (.keyError mk)
    | some '1' =>
      match lookupA d mk with
      | some v => setZeroOne d (st.1, some v) rest
      | none => .error (.keyError mk)
    | _ => .error (.unexpectedRange mk)

/-- One step of the `for k in rkeys` loop: bucket the range keys that
contain `k`'s name as a substring (`k.split("_")[0] in m`), and if the
bucket's root is not yet collapsed, run the `mk` loop and record
`odict[root] = (zero, one)`.  Reading `zero` (then `one`) while still
unassigned is Python's `UnboundLocalError`. -/
def collapseKey {α : Type} (d : List (String × GVal α)) (rkeys : List String)
    (st : Option (GVal α) × Option (GVal α)) (odict : List (String × GVal α))
    (k : String) :
    Except SplitError ((Option (GVal α) × Option (GVal α)) × List (String × GVal α)) :=
  let name := (splitUnd k).headI
  let mlist := rkeys.filter (fun m => containsSubstr m name)
  let root := (splitUnd mlist.headI).headI
  if odict.any (fun p => p.1 == root) then .ok (st, odict)
  else
    match setZeroOne d st mlist with
    | .error e => .error e
    | .ok st2 =>
      match st2.1, st2.2 with
      | none, _ => .error (.unboundLocal "zero")
      | _, none => .error (.unboundLocal "one")
      | some z, some o => .ok (st2, insertAssoc odict root (GVal.pair z o))

/-- The `for k in rkeys` loop. -/
def collapseLoop {α : Type} (d : List (String × GVal α)) (rkeys : List String) :
    Option (GVal α) × Option (GVal α) → List (String × GVal α) → List String →
    Except SplitError ((Option (GVal α) × Option (GVal α)) × List (String × GVal α))
  | st, odict, [] => .ok (st, odict)
  | st, odict, k :: rest =>
    match collapseKey d rkeys st odict k with
    | .error e => .error e
    | .ok (st2, odict2) => collapseLoop d rkeys st2 odict2 rest

/-- The body of the second loop of `split_order_info` for one beam's
dictionary `d`: collect the range keys, collapse them into `odict`,
then `d.update(odict)` and delete the original range keys. -/
def processBeam {α : Type} (st : Option (GVal α) × Option (GVal α))
    (d : List (String × GVal α)) :
    Except SplitError ((Option (GVal α) × Option (GVal α)) × List (String × GVal α)) :=
  let rkeys := (d.map Prod.fst).filter rangekeyMatch
  match collapseLoop d rkeys st [] rkeys with
  | .error e => .error e
  | .ok (st2, odict) =>
    let d2 := odict.foldl (fun acc p => insertAssoc acc p.1 p.2) d
    let d3 := rkeys.foldl (fun acc k => acc.filter (fun p => ¬ p.1 == k)) d2
    .ok (st2, d3)

/-- The second loop of `split_order_info`, over the beams in insertion
order, threading the function-level locals `zero` / `one`. -/
def secondPass {α : Type} :
    Option (GVal α) × Option (GVal α) → List (String × List (String × GVal α)) →
    Except SplitError (List (String × List (String × GVal α)))
  | _, [] => .ok []
  | st, (b, d) :: rest =>
    match processBeam st d with
    | .error e => .error e
    | .ok (st2, d2) =>
      match secondPass st2 rest with
      | .ok rs => .ok ((b, d2) :: rs)
      | .error e => .error e

/-- `split_order_info(keydict)`: accumulate keys per beam, then collapse
range pairs.  The input dictionary is an association list in insertion
order; the locals `zero` / `one` start unbound. -/
def split_order_info {α : Type} (flat : List (String × α)) :
    Except SplitError (List (String × List (String × GVal α))) :=
  secondPass (none, none) (firstPass flat)

/-! ### The line parser `dict_from_file` -/

/-- One step of `re.split('\s+|(?<!\d)[,](?!\d)', line, maxsplit=10)`:
`prev` is the previously consumed character (for the comma lookbehind),
`wsRun` records that the scanner is inside a `\s+` separator match
(its continuation does not consume a split), `s` is the number of
splits still allowed, `acc` the current token in reverse. -/
def pySplitAux : List Char → Option Char → Bool → Nat → List Char → List String
  | [], _, _, _, acc => [⟨acc.reverse⟩]
  | c :: cs, prev, wsRun, s, acc =>
    if wsRun && isPyWs c then
      pySplitAux cs (some c) true s acc
    else if isPyWs c && s ≠ 0 then
      (⟨acc.reverse⟩ : String) :: pySplitAux cs (some c) true (s - 1) []
    else if c == ',' && !(prev.getD ' ' |> isAsciiDigit) && !(cs.headD ' ' |> isAsciiDigit) && s ≠ 0 then
      (⟨acc.reverse⟩ : String) :: pySplitAux cs (some c) false (s - 1) []
    else
      pySplitAux cs (some c) false s (c :: acc)

/-- `re.split` with the `token` pattern of `dict_from_file`
(`'\s+|(?<!\d)[,](?!\d)'`) and a `maxsplit` bound. -/
def pySplit (s : String) (maxsplit : Nat) : List String :=
  pySplitAux s.data none false maxsplit []

/-- `empty.match(line)` with `empty = re.compile("(^\s*$)")`: the line
consists of whitespace only. -/
def isBlank (line : String) : Bool := line.data.all isPyWs

/-- `letters.match(line)` with `letters = re.compile("(^[a-zA-Z])")`:
the line's very first character is an ASCII letter. -/
def isAlphaFirst (line : String) : Bool :=
  match line.data with
  | c :: _ => isAsciiLetter c
  | [] => false

/-- `numbers.fullmatch(tok)` with
`numbers = re.compile("(^(?:[+\-])?(?:\d*)(?:\.)?(?:\d*)?(?:[eE][+\-]?\d*$)?)")`:
optional sign, digits, optional dot, digits, optional exponent part
`[eE][+\-]?\d*` — every component optional.  Greedy left-to-right
consumption decides the match since no digit can begin the dot or
exponent parts. -/
def numFullmatch (t : String) : Bool :=
  let cs := t.data
  let cs1 := match cs with
    | c :: rest => if c == '+' || c == '-' then rest else cs
    | [] => []
  let cs2 := cs1.dropWhile isAsciiDigit
  let cs3 := match cs2 with
    | '.' :: rest => rest
    | _ => cs2
  let cs4 := cs3.dropWhile isAsciiDigit
  match cs4 with
  | [] => true
  | e :: rest =>
    if e == 'e' || e == 'E' then
      let rest2 := match rest with
        | c :: r => if c == '+' || c == '-' then r else rest
        | [] => []
      (rest2.dropWhile isAsciiDigit).isEmpty
    else false

/-- Numeric values produced by `eval` on a token: Python `int` or
`float`.  A float literal is carried exactly as the pair
`(mant, exp)` denoting `mant * 10 ^ exp` (mantissa digits read as an
integer with the sign applied, decimal point and exponent folded into
`exp`).  The code never computes with these values — it only stores
and regroups them — so this exact decimal reading is an adequate
stand-in for the binary `float` `eval` would produce. -/
inductive PyVal : Type
  | int : Int → PyVal
  | float : Int → Int → PyVal
deriving DecidableEq

/-- Value of a digit string. -/
def digitsVal (ds : List Char) : Nat :=
  ds.foldl (fun a c => a * 10 + (c.toNat - '0'.toNat)) 0

/-- Python `eval(tok)` restricted to the token shapes that can reach it
(tokens accepted by `numFullmatch`): `some` a numeric value when the
token is a valid Python numeric literal (optionally signed), `none`
when `eval` raises (`SyntaxError` for shapes like `"."`, `"-"`, `"1e"`,
`"007"` — leading zeros are illegal in a plain int literal unless all
digits are zero — and `NameError` for identifier shapes like `"e5"`).
A literal is an `int` when it has neither dot nor exponent, else a
`float`. -/
def pyEvalNum (t : String) : Option PyVal :=
  let cs := t.data
  let sgn : Int := match cs with
    | '-' :: _ => -1
    | _ => 1
  let cs1 := match cs with
    | c :: rest => if c == '+' || c == '-' then rest else cs
    | [] => []
  let d1 := cs1.takeWhile isAsciiDigit
  let r1 := cs1.dropWhile isAsciiDigit
  let hasDot : Bool := match r1 with
    | '.' :: _ => true
    | _ => false
  let r2 := match r1 with
    | '.' :: rest => rest
    | _ => r1
  let d2 := r2.takeWhile isAsciiDigit
  let r3 := r2.dropWhile isAsciiDigit
  let mant := d1 ++ d2
  match r3 with
  | [] =>
    if mant.isEmpty then none
    else if hasDot then
      some (.float (sgn * (digitsVal mant : Int)) (-(d2.length : Int)))
    else if d1.headD '0' == '0' && d1.any (fun c => !(c == '0')) then none
    else some (.int (sgn * (digitsVal d1 : Int)))
  | e :: rest =>
    if e == 'e' || e == 'E' then
      let esgn : Int := match rest with
        | '-' :: _ => -1
        | _ => 1
      let r4 := match rest with
        | c :: r => if c == '+' || c == '-' then r else rest
        | [] => []
      let d3 := r4.takeWhile isAsciiDigit
      let r5 := r4.dropWhile isAsciiDigit
      if r5.isEmpty && !d3.isEmpty && !mant.isEmpty then
        some (.float (sgn * (digitsVal mant : Int))
          (esgn * (digitsVal d3 : Int) - (d2.length : Int)))
      else none
    else none

/-- Content values of the dictionary built by `dict_from_file`: a
scalar number (the two-token case) or a list of numbers. -/
inductive CVal : Type
  | scalar : PyVal → CVal
  | seq : List PyVal → CVal
deriving DecidableEq

/-- Errors `dict_from_file` can raise while processing lines:
`malformed key` is the `ValueError("Unexpected value for {key}")` of the
multi-value branch, `evalFailure tok` an uncaught `SyntaxError` /
`NameError` escaping `eval` on a token that passed the regex guard. -/
inductive ParseError : Type
  | malformed (key : String)
  | evalFailure (tok : String)
deriving DecidableEq

/-- The `for v in vals` loop of the multi-value branch: every token
must pass `numbers.fullmatch`, else `ValueError` naming the key;
tokens that pass are `eval`ed in order (an `eval` failure propagates). -/
def parseVals (key : String) : List String → Except ParseError (List PyVal)
  | [] => .ok []
  | v :: rest =>
    if numFullmatch v then
      match pyEvalNum v with
      | some x =>
        match parseVals key rest with
        | .ok l => .ok (x :: l)
        | .error e => .error e
      | none => .error (.evalFailure v)
    else .error (.malformed key)

/-- The final insertion guard of the line loop: `if key:` and the
(case-sensitive) `"FILTER" not in key and "SENS" not in key` test;
keys passing both are inserted with last-write-wins semantics. -/
def maybeInsert (content : List (String × CVal)) (key : String) (v : CVal) :
    List (String × CVal) :=
  if key ≠ "" && !containsSubstr key "FILTER" && !containsSubstr key "SENS" then
    insertAssoc content key v
  else content

/-- Processing of a line that passed the blank and first-letter guards:
split the stripped line (maxsplit 10); with exactly two tokens a
number-grammar second token is `eval`ed into a scalar (an `eval`
failure propagates) and a non-matching one leaves `value = None` so the
key maps to the empty `vallist`; with any other token count every
remaining token goes through `parseVals`. -/
def handleKV (content : List (String × CVal)) (line : String) :
    Except ParseError (List (String × CVal)) :=
  let pair := pySplit (pyStrip line) 10
  if pair.length = 2 then
    let key := pair.headI
    let t := pair.getD 1 ""
    if numFullmatch t then
      match pyEvalNum t with
      | some x => .ok (maybeInsert content key (.scalar x))
      | none => .error (.evalFailure t)
    else .ok (maybeInsert content key (.seq []))
  else
    let key := pair.headI
    match parseVals key pair.tail with
    | .ok l => .ok (maybeInsert content key (.seq l))
    | .error e => .error e

/-- One iteration of the `for line in lines` loop: whitespace-only
lines and lines not starting with a letter leave the dictionary
unchanged, every other line is handled as a key/value line. -/
def dictStep (content : List (String × CVal)) (line : String) :
    Except ParseError (List (String × CVal)) :=
  if isBlank line then .ok content
  else if isAlphaFirst line then handleKV content line
  else .ok content

/-- The line loop of `dict_from_file`, folded over the file's lines. -/
def dictAux : List (String × CVal) → List String → Except ParseError (List (String × CVal))
  | content, [] => .ok content
  | content, l :: ls =>
    match dictStep content l with
    | .ok c2 => dictAux c2 ls
    | .error e => .error e

/-- `dict_from_file`: read the file's lines and build the dictionary of
key/value pairs (the file itself is modelled as its list of lines,
without trailing newlines; the `print` diagnostics are side effects
with no bearing on the result). -/
def dict_from_file (lines : List String) : Except ParseError (List (String × CVal)) :=
  dictAux [] lines

/-! ### General lemmas about the embedding -/

theorem insertAssoc_mem {β : Type} (d : List (String × β)) (k : String) (v : β)
    (p : String × β) (hp : p ∈ insertAssoc d k v) : p ∈ d ∨ p.1 = k := by
  unfold insertAssoc at hp
  by_cases h : d.any (fun q => q.1 == k)
  · rw [if_pos h] at hp
    obtain ⟨q, hq, hqe⟩ := List.mem_map.mp hp
    by_cases h2 : (q.1 == k) = true
    · rw [if_pos h2] at hqe
      right; rw [← hqe]
    · rw [if_neg h2] at hqe
      left; rw [← hqe]; exact hq
  · rw [if_neg h] at hp
    rcases List.mem_append.mp hp with h1 | h1
    · exact Or.inl h1
    · right
      rcases List.mem_singleton.mp h1 with rfl
      rfl

theorem maybeInsert_clean (content : List (String × CVal)) (key : String) (v : CVal)
    (hc : ∀ p ∈ content, containsSubstr p.1 "FILTER" = false ∧ containsSubstr p.1 "SENS" = false) :
    ∀ p ∈ maybeInsert content key v,
      containsSubstr p.1 "FILTER" = false ∧ containsSubstr p.1 "SENS" = false := by
  intro p hp
  unfold maybeInsert at hp
  by_cases h : (key ≠ "" && !containsSubstr key "FILTER" && !containsSubstr key "SENS") = true
  · rw [if_pos h] at hp
    rcases insertAssoc_mem content key v p hp with h1 | h1
    · exact hc p h1
    · rw [h1]
      simp only [Bool.and_eq_true, Bool.not_eq_true'] at h
      exact ⟨h.1.2, h.2⟩
  · rw [if_neg h] at hp
    exact hc p hp

theorem handleKV_shape (content : List (String × CVal)) (line : String)
    (c2 : List (String × CVal)) (h : handleKV content line = .ok c2) :
    ∃ key v, c2 = maybeInsert content key v := by
  simp only [handleKV] at h
  split at h
  · split at h
    · split at h
      · exact ⟨_, _, (Except.ok.inj h).symm⟩
      · exact Except.noConfusion h
    · exact ⟨_, _, (Except.ok.inj h).symm⟩
  · split at h
    · exact ⟨_, _, (Except.ok.inj h).symm⟩
    · exact Except.noConfusion h

theorem dictStep_clean (content : List (String × CVal)) (line : String)
    (c2 : List (String × CVal)) (h : dictStep content line = .ok c2)
    (hc : ∀ p ∈ content, containsSubstr p.1 "FILTER" = false ∧ containsSubstr p.1 "SENS" = false) :
    ∀ p ∈ c2, containsSubstr p.1 "FILTER" = false ∧ containsSubstr p.1 "SENS" = false := by
  unfold dictStep at h
  split at h
  · obtain rfl := Except.ok.inj h
    exact hc
  · split at h
    · obtain ⟨key, v, rfl⟩ := handleKV_shape content line c2 h
      exact maybeInsert_clean content key v hc
    · obtain rfl := Except.ok.inj h
      exact hc

theorem dictAux_clean : ∀ (ls : List String) (content c2 : List (String × CVal)),
    dictAux content ls = .ok c2 →
    (∀ p ∈ content, containsSubstr p.1 "FILTER" = false ∧ containsSubstr p.1 "SENS" = false) →
    ∀ p ∈ c2, containsSubstr p.1 "FILTER" = false ∧ containsSubstr p.1 "SENS" = false := by
  intro ls
  induction ls with
  | nil =>
    intro content c2 h hc
    obtain rfl := Except.ok.inj h
    exact hc
  | cons l ls ih =>
    intro content c2 h hc
    unfold dictAux at h
    cases hstep : dictStep content l with
    | ok cmid =>
      rw [hstep] at h
      exact ih cmid c2 h (dictStep_clean content l cmid hstep hc)
    | error e =>
      rw [hstep] at h
      exact Except.noConfusion h

theorem letter_not_ws (c : Char) (h : isAsciiLetter c = true) : isPyWs c = false := by
  by_contra hws
  rw [Bool.not_eq_false] at hws
  unfold isPyWs at hws
  simp only [Bool.or_eq_true, beq_iff_eq] at hws
  rcases hws with ((((rfl | rfl) | rfl) | rfl) | rfl) | rfl <;> exact absurd h (by decide)

theorem alphaFirst_not_blank (line : String) (h : isAlphaFirst line = true) :
    isBlank line = false := by
  unfold isAlphaFirst at h
  unfold isBlank
  cases hd : line.data with
  | nil => rw [hd] at h; exact Bool.noConfusion h
  | cons c cs =>
    rw [hd] at h
    simp [List.all_cons, letter_not_ws c h]

theorem firstStep_skip {α : Type} (rdict : List (String × List (String × GVal α)))
    (kv : String × α) (h : tokenMatch kv.1 = false) : firstStep rdict kv = rdict := by
  unfold firstStep
  rw [h]
  simp

theorem firstPass_filter_aux {α : Type} :
    ∀ (flat : List (String × α)) (rdict : List (String × List (String × GVal α))),
      flat.foldl firstStep rdict = (flat.filter (fun p => tokenMatch p.1)).foldl firstStep rdict := by
  intro flat
  induction flat with
  | nil => intro rdict; rfl
  | cons kv rest ih =>
    intro rdict
    cases h : tokenMatch kv.1 with
    | false => simp [List.filter_cons, h, firstStep_skip _ _ h, ih]
    | true => simp [List.filter_cons, h, ih]

theorem parseVals_cons (k v : String) (rest : List String) :
    parseVals k (v :: rest) =
      if numFullmatch v then
        match pyEvalNum v with
        | some x =>
          match parseVals k rest with
          | .ok l => .ok (x :: l)
          | .error e => .error e
        | none => .error (.evalFailure v)
      else .error (.malformed k) := rfl

theorem parseVals_ok (k : String) (vs : List String)
    (h : ∀ v ∈ vs, numFullmatch v = true ∧ (pyEvalNum v).isSome = true) :
    ∃ l, parseVals k vs = .ok l := by
  induction vs with
  | nil => exact ⟨[], rfl⟩
  | cons v rest ih =>
    obtain ⟨hf, hs⟩ := h v (List.mem_cons_self v rest)
    obtain ⟨x, hx⟩ := Option.isSome_iff_exists.mp hs
    obtain ⟨l, hl⟩ := ih (fun w hw => h w (List.mem_cons_of_mem v hw))
    refine ⟨x :: l, ?_⟩
    rw [parseVals_cons, if_pos hf, hx, hl]

/-! ### Claim theorems -/

/-- Claim C1 (failing example): on the spec's round-trip example
`{"A_1_0": 1.0, "A_1_1": 2.0}` the beam token is `"1"`, and the
prefetch pass strips every occurrence of `_1` from the raw key, so
`A_1_1` loses its range suffix and becomes plain `A` while `A_1_0`
becomes `A_0`.  The range-collapse pass then sees the single-sided
range key `A_0`, assigns only the local `zero`, and evaluating
`(zero, one)` raises `UnboundLocalError` on `one` — the claimed result
beam `"1" ↦ {"A": (1.0, 2.0)}` is never produced.  The grouper is
value-polymorphic; the payloads `1` and `2` stand for the spec's
`1.0` and `2.0`. -/
theorem claim1_range_collapse_crashes :
    firstPass [("A_1_0", (1 : Int)), ("A_1_1", 2)] =
      [("1", [("A_0", .single 1), ("A", .single 2)])] ∧
    split_order_info [("A_1_0", (1 : Int)), ("A_1_1", 2)] = .error (.unboundLocal "one") := by
  decide

/-- Claim C2 (failing example): a single-sided range key is not left
untouched.  On the spec's example `{"DISPX_A_0": 0.1, "DISPX_A_1": 0.2,
"DISPY_B_0": -0.1}` (payloads `1, 2, -1`), beam `B`'s lone `DISPY_0`
is collapsed into the tuple `("DISPY", (-0.1, 0.2))` whose second
component is the stale value of the function-level local `one` left
over from beam `A` — not left as `DISPY_0 ↦ -0.1`.  When no earlier
pair populated the locals, e.g. on `{"DISPY_B_0": -0.1}` alone, the
code instead crashes with `UnboundLocalError` on `one`. -/
theorem claim2_single_sided_not_left_untouched :
    split_order_info [("DISPX_A_0", (1 : Int)), ("DISPX_A_1", 2), ("DISPY_B_0", -1)] =
      .ok [("A", [("DISPX", .pair (.single 1) (.single 2))]),
           ("B", [("DISPY", .pair (.single (-1)) (.single 2))])] ∧
    split_order_info [("DISPY_B_0", (-1 : Int))] = .error (.unboundLocal "one") := by
  constructor <;> decide

/-- Claim C3 (counterexample): the `FILTER`/`SENS` exclusion is
case-sensitive.  The key `filter` contains `FILTER` case-insensitively
(its uppercasing contains the substring `FILTER`), yet the parser
inserts it, so a key containing `FILTER` in some letter case does
appear in the result. -/
theorem claim3_counterexample :
    containsSubstr (pyUpper "filter") "FILTER" = true ∧
    dict_from_file ["filter 1"] = .ok [("filter", .scalar (.int 1))] := by
  decide

/-- Claim C3 (amended): for every input and every key containing the
exact uppercase substring `FILTER` or `SENS`, the parser never inserts
that key: no key of a successfully returned dictionary contains either
substring case-sensitively. -/
theorem claim3_uppercase_filter_sens_excluded :
    ∀ (lines : List String) (content : List (String × CVal)),
      dict_from_file lines = .ok content →
      ∀ p ∈ content, containsSubstr p.1 "FILTER" = false ∧ containsSubstr p.1 "SENS" = false :=
  fun lines content h => dictAux_clean lines [] content h (by simp)

/-- Claim C3 (witness): instantiating the amended theorem on the
one-line file `A 1`, whose result is `[("A", 1)]`. -/
theorem claim3_witness :
    containsSubstr "A" "FILTER" = false ∧ containsSubstr "A" "SENS" = false :=
  claim3_uppercase_filter_sens_excluded ["A 1"] [("A", .scalar (.int 1))] (by decide)
    ("A", .scalar (.int 1)) (by decide)

/-- Claim C4 (counterexample): the tail of the claim — "otherwise
inserts the key mapped to the ordered sequence of parsed numbers" —
fails for keys containing `FILTER`/`SENS`: the line
`FILTERX 1 2 3` has more than 2 tokens, all numeric, yet the result is
empty rather than `{"FILTERX": [1, 2, 3]}`. -/
theorem claim4_counterexample :
    dict_from_file ["FILTERX 1 2 3"] = .ok [] ∧
    dict_from_file ["FILTERX 1 2 3"] ≠
      .ok [("FILTERX", .seq [.int 1, .int 2, .int 3])] := by
  decide

/-- Claim C4 (amended): for a line splitting into more than 2 tokens,
`KEY 3.5 abc` fails the whole parse with the `ValueError` naming `KEY`
(first conjunct); in general the value loop fails with that error
naming the key as soon as it reaches a token failing the number
grammar, earlier tokens all evaluating (second conjunct); and when
every token after the key passes the grammar and evaluates, and the
key is nonempty and free of `FILTER`/`SENS`, the key is inserted
mapped to the ordered parsed numbers (third conjunct). -/
theorem claim4_multivalue_malformed :
    dict_from_file ["KEY 3.5 abc"] = .error (.malformed "KEY") ∧
    (∀ (k bad : String) (pre post : List String),
      (∀ v ∈ pre, numFullmatch v = true ∧ (pyEvalNum v).isSome = true) →
      numFullmatch bad = false →
      parseVals k (pre ++ bad :: post) = .error (.malformed k)) ∧
    (∀ (line : String) (content : List (String × CVal)) (k : String) (vs : List String),
      isBlank line = false → isAlphaFirst line = true →
      pySplit (pyStrip line) 10 = k :: vs → vs.length ≠ 1 →
      (∀ v ∈ vs, numFullmatch v = true ∧ (pyEvalNum v).isSome = true) →
      containsSubstr k "FILTER" = false → containsSubstr k "SENS" = false → k ≠ "" →
      ∃ l, parseVals k vs = .ok l ∧
        dictStep content line = .ok (insertAssoc content k (.seq l))) := by
  refine ⟨by decide, ?_, ?_⟩
  · intro k bad pre post hpre hbad
    induction pre with
    | nil =>
      rw [List.nil_append, parseVals_cons, if_neg]
      rw [hbad]
      exact Bool.false_ne_true
    | cons v pre ih =>
      obtain ⟨hf, hs⟩ := hpre v (List.mem_cons_self v pre)
      obtain ⟨x, hx⟩ := Option.isSome_iff_exists.mp hs
      have ihh := ih (fun w hw => hpre w (List.mem_cons_of_mem v hw))
      rw [List.cons_append, parseVals_cons, if_pos hf, hx, ihh]
  · intro line content k vs hb ha hsplit hlen hvs hkF hkS hk
    obtain ⟨l, hl⟩ := parseVals_ok k vs hvs
    refine ⟨l, hl, ?_⟩
    unfold dictStep
    rw [if_neg (by rw [hb]; exact Bool.false_ne_true), if_pos ha]
    simp only [handleKV, hsplit]
    rw [if_neg (by simp only [List.length_cons]; omega)]
    simp only [List.headI, List.tail_cons]
    rw [hl]
    simp [maybeInsert, hk, hkF, hkS]

/-- Claim C4 (witness): the amended theorem applied to the malformed
token list `["x"]` under key `K`, and to the well-formed line
`K 1 2`. -/
theorem claim4_witness :
    parseVals "K" ["x"] = .error (.malformed "K") ∧
    dictStep [] "K 1 2" = .ok [("K", .seq [.int 1, .int 2])] := by
  constructor
  · exact claim4_multivalue_malformed.2.1 "K" "x" [] [] (by simp) (by decide)
  · obtain ⟨l, hl, hstep⟩ := claim4_multivalue_malformed.2.2 "K 1 2" [] "K" ["1", "2"]
      (by decide) (by decide) (by decide) (by decide) (by decide) (by decide) (by decide)
      (by decide)
    rw [hstep]
    rw [show l = [PyVal.int 1, PyVal.int 2] from by
      have := hl.symm.trans (show parseVals "K" ["1", "2"] = .ok [PyVal.int 1, PyVal.int 2] by decide)
      exact Except.ok.inj this]
    decide

/-- Claim C5 (counterexample): the stripped key is computed with the
uppercased beam token and with replace-all semantics, not the original
case once.  For `TR_a_0` (beam token `a`, uppercased to `A`) nothing
is removed — the key is stored as `TR_a_0`, not the claimed `TR_0`;
and for `X_A_A` both occurrences of `_A` are removed, giving `X`
rather than the claimed once-stripped `X_A`. -/
theorem claim5_counterexample :
    split_order_info [("TR_a_0", (5 : Int))] = .ok [("A", [("TR_a_0", .single 5)])] ∧
    split_order_info [("TR_a_0", (5 : Int))] ≠ .ok [("A", [("TR_0", .single 5)])] ∧
    split_order_info [("X_A_A", (7 : Int))] = .ok [("A", [("X", .single 7)])] ∧
    split_order_info [("X_A_A", (7 : Int))] ≠ .ok [("A", [("X_A", .single 7)])] := by
  refine ⟨by decide, by decide, by decide, by decide⟩

/-- Claim C5 (amended): for every key matching the beam pattern, the
prefetch pass inserts, under the uppercased beam token, the stripped
key obtained by removing every occurrence of `_<BEAM>` with `BEAM`
the uppercased beam token (so a lowercase beam token in the raw key is
not stripped at all). -/
theorem claim5_strip_uppercased_all :
    ∀ (α : Type) (k : String) (v : α), tokenMatch k = true →
      firstPass [(k, v)] =
        [(beamOf k, [(pyReplace k ("_" ++ beamOf k) "", GVal.single v)])] := by
  intro α k v h
  unfold firstPass
  rw [List.foldl_cons, List.foldl_nil]
  unfold firstStep
  rw [if_pos h]
  simp [insertAssoc]

/-- Claim C5 (witness): the amended theorem applied to the raw key
`TR_a_0` with payload `5`: the beam is `A` and the stored key is the
unchanged `TR_a_0`. -/
theorem claim5_witness :
    firstPass [("TR_a_0", (5 : Int))] = [("A", [("TR_a_0", GVal.single 5)])] :=
  (claim5_strip_uppercased_all Int "TR_a_0" 5 (by decide)).trans (by decide)

/-- Claim C6 (counterexample): the skip test looks at the line's first
character, not its first non-whitespace character: ` A 1` (leading
space, first non-whitespace character the letter `A`) produces no
entry, while the same line without the leading space produces
`A ↦ 1`. -/
theorem claim6_counterexample :
    dict_from_file [" A 1"] = .ok [] ∧
    dict_from_file ["A 1"] = .ok [("A", .scalar (.int 1))] := by
  decide

/-- Claim C6 (amended): the parser skips — leaving the dictionary
unchanged, with no error — exactly those lines that are
whitespace-only or whose first character is not an ASCII letter, and
hands every line whose first character is a letter to the key/value
handler. -/
theorem claim6_skip_first_char :
    ∀ (line : String) (content : List (String × CVal)),
      (isBlank line = true ∨ isAlphaFirst line = false → dictStep content line = .ok content) ∧
      (isAlphaFirst line = true → dictStep content line = handleKV content line) := by
  intro line content
  constructor
  · intro h
    unfold dictStep
    rcases h with h | h
    · rw [if_pos h]
    · by_cases hb : isBlank line = true
      · rw [if_pos hb]
      · rw [if_neg hb, if_neg (by rw [h]; exact Bool.false_ne_true)]
  · intro h
    unfold dictStep
    rw [if_neg (by rw [alphaFirst_not_blank line h]; exact Bool.false_ne_true), if_pos h]

/-- Claim C6 (witness): the amended theorem applied to the comment
line `# x`, which is skipped without error. -/
theorem claim6_witness : dictStep [] "# x" = .ok [] :=
  (claim6_skip_first_char "# x" []).1 (Or.inr (by decide))

/-- Claim C7: keys that do not match the beam pattern are excluded
entirely — the grouper's result is unchanged when they are filtered
away beforehand, so neither their key nor their value influences any
beam; and a flat mapping with no beam-pattern key yields the empty
grouped dictionary with no error. -/
theorem claim7_nonbeam_keys_excluded :
    ∀ (α : Type) (flat : List (String × α)),
      split_order_info flat = split_order_info (flat.filter (fun p => tokenMatch p.1)) ∧
      ((∀ p ∈ flat, tokenMatch p.1 = false) → split_order_info flat = .ok []) := by
  intro α flat
  constructor
  · unfold split_order_info firstPass
    rw [firstPass_filter_aux flat []]
  · intro h
    have hnil : flat.filter (fun p => tokenMatch p.1) = [] :=
      List.filter_eq_nil_iff.mpr (fun p hp => by simp [h p hp])
    unfold split_order_info firstPass
    rw [firstPass_filter_aux flat [], hnil]
    rfl

/-- Claim C7 (witness): the theorem applied to the flat mapping
`{"WRANGE": 1}`, whose single key does not match the beam pattern. -/
theorem claim7_witness : split_order_info [("WRANGE", (1 : Int))] = .ok [] :=
  (claim7_nonbeam_keys_excluded Int [("WRANGE", 1)]).2 (by decide)

/-- Claim C8 (counterexample): the claim's "silently inserts the key
mapped to an empty sequence" fails for keys containing
`FILTER`/`SENS`: `FILTERX abc` splits into exactly two tokens with a
non-numeric second token, raises no error, but its key is omitted
rather than inserted with value `[]`. -/
theorem claim8_counterexample :
    dict_from_file ["FILTERX abc"] = .ok [] ∧
    dict_from_file ["FILTERX abc"] ≠ .ok [("FILTERX", .seq [])] := by
  decide

/-- Claim C8 (amended): a processed line splitting into exactly two
tokens whose second token fails the number grammar never errors: the
key, when nonempty and free of `FILTER`/`SENS`, is inserted mapped to
the empty sequence (`value` stays `None`, so the empty `vallist` is
stored); a filtered key leaves the dictionary unchanged. -/
theorem claim8_twotoken_nonnumeric_empty_list :
    ∀ (line : String) (content : List (String × CVal)) (k t : String),
      isBlank line = false → isAlphaFirst line = true →
      pySplit (pyStrip line) 10 = [k, t] → numFullmatch t = false →
      dictStep content line = .ok (maybeInsert content k (.seq [])) := by
  intro line content k t hb ha hsplit ht
  unfold dictStep
  rw [if_neg (by rw [hb]; exact Bool.false_ne_true), if_pos ha]
  simp only [handleKV, hsplit]
  simp [ht]

/-- Claim C8 (witness): the amended theorem applied to the line
`KEY abc`: the key `KEY` is inserted mapped to the empty sequence. -/
theorem claim8_witness : dictStep [] "KEY abc" = .ok [("KEY", CVal.seq [])] :=
  (claim8_twotoken_nonnumeric_empty_list "KEY abc" [] "KEY" "abc"
    (by decide) (by decide) (by decide) (by decide)).trans (by decide)

/-- Claim C9: every component of the number grammar is optional, so
the non-literals `.`, `-` and `e5` all pass `fullmatch`; `eval` then
fails on them (`SyntaxError` / `NameError`, modelled as `none`), and
on the two-token line `KEY .` the parser reaches the evaluation
failure instead of treating the line as non-numeric. -/
theorem claim9_eval_branch_reachable :
    numFullmatch "." = true ∧ numFullmatch "-" = true ∧ numFullmatch "e5" = true ∧
    pyEvalNum "." = none ∧ pyEvalNum "-" = none ∧ pyEvalNum "e5" = none ∧
    dict_from_file ["KEY ."] = .error (.evalFailure ".") := by
  decide

/-- Claim C10: the range-collapse pass buckets by substring
containment of the name before the underscore: with stripped range
keys `A_0` and `AB_1` in beam `C` (raw keys `A_C_0`, `AB_C_1`), the
bucket of `A` contains both, so the values of the two different names
are collapsed into the tuple `(3, 4)` stored under the shorter name
`A` (and again under `AB`). -/
theorem claim10_substring_bucketing :
    split_order_info [("A_C_0", (3 : Int)), ("AB_C_1", 4)] =
      .ok [("C", [("A", .pair (.single 3) (.single 4)),
                  ("AB", .pair (.single 3) (.single 4))])] := by
  decide

end Niriss
